import Mathlib

/-!
Shallow embedding of `src/backtesthub/strategy.py` (class `Strategy`) and of the
external collaborators its contract depends on (`Line`/`Base`/`Asset`/`Hedge`
containers, `Broker`, `Position`, `derive_params`, the `_MODE` configuration
constant).  The collaborators are not part of the visible source, so they are
modelled from the specification: each such definition carries a doc comment
starting with `Modelled from the spec:`.

Python mutation is embedded as explicit state passing; a Python call that can
raise is embedded as a function returning the raised exception (if any)
together with the post-call state, so that partial mutation before an
exception is observable.  Numeric values are embedded as rationals.
-/

namespace Backtesthub

/-- A Python exception value, reduced to the class name and the rendered
message (`str(e)`). -/
structure PyExc where
  cls : String
  msg : String
deriving Repr, DecidableEq

/-- Association-list lookup, embedding Python `dict` lookup (`d[k]` /
`d.get(k)`): the first binding of the key wins. -/
def alook {α : Type} : List (String × α) → String → Option α
  | [], _ => none
  | p :: rest, k => if p.1 = k then some p.2 else alook rest k

/-- Association-list update, embedding Python `dict.update({k: v})` /
`d[k] = v`: overwrite in place when the key is present, append otherwise. -/
def upsert {α : Type} : List (String × α) → String → α → List (String × α)
  | [], k, v => [(k, v)]
  | p :: rest, k, v => if p.1 = k then (k, v) :: rest else p :: upsert rest k v

/-- Modelled from the spec: a `Line` (`utils/bases.py`, not under `src/`) is an
ordered sequence of numeric values, immutable once created. -/
structure Line where
  array : List Rat
deriving Repr, DecidableEq

/-- Modelled from the spec: the data-container family `Base`/`Asset`/`Hedge`
(`utils/bases.py`, not under `src/`): a `ticker`, a timeline length
(`len(self)`), and a mapping from Line-name to Line.  The three roles share
one capability interface, so a single structure embeds all of them. -/
structure DataC where
  ticker : String
  length : Nat
  lines : List (String × Line)
deriving Repr, DecidableEq

/-- Reading an attached Line by name (`data.signal`, `data.strength`). -/
def DataC.getLine (d : DataC) (name : String) : Option Line :=
  alook d.lines name

/-- Modelled from the spec: the container primitive
`add_line(name, line)` (overwrite-by-name semantics); a Line's length must
equal the timeline length of its owning container, so attachment of a Line
of any other length fails with a `LineLengthMismatchError` instead of
silently truncating or padding. -/
def DataC.add_line (d : DataC) (name : String) (line : Line) : Except PyExc DataC :=
  if line.array.length = d.length then
    .ok (DataC.mk d.ticker d.length (upsert d.lines name line))
  else
    .error (PyExc.mk "LineLengthMismatchError" name)

/-- Modelled from the spec: `Position` (`position.py`, not under `src/`):
book-kept size of one tradable instrument, parameterized by a sizing
`method`; a freshly created Position's size is 0. -/
structure Position where
  ticker : String
  size : Rat
  method : String
deriving Repr, DecidableEq

/-- An order instruction, as handed to the Broker by `new_order`. -/
structure Order where
  ticker : String
  size : Rat
  limit : Option Rat
deriving Repr, DecidableEq

/-- Modelled from the spec: the `Broker` collaborator (`broker.py`, not under
`src/`), reduced to the contract the core consumes: `get_position(ticker)`
returns the existing Position for a ticker or nothing, and `new_order`
records one submitted order instruction. -/
structure Broker where
  positions : List (String × Position)
  orders : List Order
deriving Repr, DecidableEq

/-- Modelled from the spec: `Broker.get_position(ticker) -> Position|None`. -/
def Broker.get_position (b : Broker) (ticker : String) : Option Position :=
  alook b.positions ticker

/-- Modelled from the spec: `Broker.new_order(data, size, limit)` submits one
order; the core never inspects fills. -/
def Broker.new_order (b : Broker) (data : DataC) (size : Rat) (limit : Option Rat) : Broker :=
  Broker.mk b.positions (b.orders ++ [Order.mk data.ticker size limit])

/-- A positional indicator argument (`Union[str, int, float]`). -/
inductive Param where
  | str (s : String)
  | int (i : Int)
  | num (q : Rat)
deriving Repr, DecidableEq

def Param.render : Param → String
  | .str s => s
  | .int i => toString i
  | .num q => toString q

/-- Modelled from the spec: `derive_params(args) -> canonical_string`
(`utils/checks.py`, not under `src/`): deterministic and stable for identical
argument tuples, used only for descriptor naming. -/
def derive_params (args : List Param) : String :=
  String.intercalate ", " (args.map Param.render)

/-- Modelled from the spec: the supported mode constant `_MODE["V"]`
(`utils/config.py`, not under `src/`): only "vectorized" is supported. -/
def MODE_V : String := "vectorized"

/-- `np.sign`, elementwise on one value: -1, 0 or +1. -/
def np_sign (q : Rat) : Rat :=
  if 0 < q then 1 else if q < 0 then -1 else 0

/-- An indicator function passed to `Strategy.I`: its Python `__name__` and
its body, which may raise. -/
structure Indicator where
  name : String
  run : DataC → List Param → Except PyExc (List Rat)

/-- The `Strategy` state: the private attributes `__broker`, `__bases`,
`__assets`, `__hedges` (mappings whose entries may be `None`), `__mode`
(initialized to `_MODE["V"]`) and `__indicators`. -/
structure Strategy where
  broker : Broker
  bases_raw : List (String × Option DataC)
  assets_raw : List (String × Option DataC)
  hedges_raw : List (String × Option DataC)
  mode : String
  indicators : List (String × String)
deriving Repr, DecidableEq

/-- `Strategy.__init__`: stores the collaborators and sets
`self.__mode = _MODE["V"]`, `self.__indicators = {}`. -/
def Strategy.init (broker : Broker) (bases assets hedges : List (String × Option DataC)) :
    Strategy :=
  Strategy.mk broker bases assets hedges MODE_V []

/-- The `bases` property: `{k: v for k, v in self.__bases.items() if v is not None}`. -/
def Strategy.bases (s : Strategy) : List (String × DataC) :=
  s.bases_raw.filterMap (fun p => p.2.map (fun v => (p.1, v)))

/-- The `assets` property: `{k: v for k, v in self.__assets.items() if v is not None}`. -/
def Strategy.assets (s : Strategy) : List (String × DataC) :=
  s.assets_raw.filterMap (fun p => p.2.map (fun v => (p.1, v)))

/-- The `hedges` property: `{k: v for k, v in self.__hedges.items() if v is not None}`. -/
def Strategy.hedges (s : Strategy) : List (String × DataC) :=
  s.hedges_raw.filterMap (fun p => p.2.map (fun v => (p.1, v)))

/-- The `base` property: `self.__bases.get("base")`, flattening the optional
entry. -/
def Strategy.base (s : Strategy) : Option DataC :=
  (alook s.bases_raw "base").join

/-- `Strategy.I(func, data, *args)`.  Returns the raised exception (if any)
together with the post-call Strategy and container states, so that which
state was mutated before a raise is observable.  Control flow follows the
source: compute `name` from `func.__name__` and `derive_params(args)`; if the
mode is the vectorized one, run `func` and re-raise any failure as
`Exception(e)`; otherwise raise `NotImplementedError`; then check the result
length against `len(data)` (`ValueError` on mismatch); then build the
`strength` and `signal` Lines, update `self.__indicators[ticker]`, and attach
`"signal"` then `"strength"` to `data`. -/
def Strategy.I (s : Strategy) (func : Indicator) (data : DataC) (args : List Param) :
    Option PyExc × Strategy × DataC :=
  let name := func.name ++ "(" ++ derive_params args ++ ")"
  if s.mode = MODE_V then
    match func.run data args with
    | .error e => (some (PyExc.mk "Exception" e.msg), s, data)
    | .ok ind =>
      if data.length = ind.length then
        let strength := Line.mk ind
        let signal := Line.mk (ind.map np_sign)
        let s2 := Strategy.mk s.broker s.bases_raw s.assets_raw s.hedges_raw s.mode
          (upsert s.indicators data.ticker name)
        match data.add_line "signal" signal with
        | .error e => (some e, s2, data)
        | .ok d1 =>
          match d1.add_line "strength" strength with
          | .error e => (some e, s2, d1)
          | .ok d2 => (none, s2, d2)
      else
        (some (PyExc.mk "ValueError" (name ++ ": error in Line length")), s, data)
  else
    (some (PyExc.mk "NotImplementedError" ("`Mode` " ++ s.mode ++ " not implemented")), s, data)

/-- The loop body of `broadcast`: for each target asset, read `base.signal`
and `base.strength` and attach them under the same names.  On a raise the
assets already processed (and any partial attachment on the failing asset)
keep their mutated state, the rest stay untouched. -/
def broadcastLoop (b : DataC) : List (String × DataC) → Option PyExc × List (String × DataC)
  | [] => (none, [])
  | (k, a) :: rest =>
    match b.getLine "signal" with
    | none => (some (PyExc.mk "AttributeError" "signal"), (k, a) :: rest)
    | some sig =>
      match a.add_line "signal" sig with
      | .error e => (some e, (k, a) :: rest)
      | .ok a1 =>
        match b.getLine "strength" with
        | none => (some (PyExc.mk "AttributeError" "strength"), (k, a1) :: rest)
        | some str =>
          match a1.add_line "strength" str with
          | .error e => (some e, (k, a1) :: rest)
          | .ok a2 =>
            match broadcastLoop b rest with
            | (err, rest2) => (err, (k, a2) :: rest2)

/-- `Strategy.broadcast(base=None, assets={})`: default the source container
to `self.bases["base"]` when none is supplied (`KeyError` when that role is
not configured) and the target mapping to `self.assets` when the supplied
mapping is empty (Python `if not assets:` — an empty dict is falsy), then
copy the source's `signal` and `strength` Lines onto every target. -/
def Strategy.broadcast (s : Strategy) (base : Option DataC) (assets : List (String × DataC)) :
    Option PyExc × List (String × DataC) :=
  let assets2 := if assets.isEmpty then s.assets else assets
  match (match base with | some b => some b | none => alook s.bases "base") with
  | none => (some (PyExc.mk "KeyError" "base"), assets2)
  | some b => broadcastLoop b assets2

/-- `Strategy.order(data, size, price=None)`: thin pass-through to
`Broker.new_order`. -/
def Strategy.order (s : Strategy) (data : DataC) (size : Rat) (price : Option Rat) : Strategy :=
  Strategy.mk (s.broker.new_order data size price) s.bases_raw s.assets_raw s.hedges_raw
    s.mode s.indicators

/-- `Strategy.order_target(data, target=None, price=None, thresh, method)`,
exactly as the visible source has it: query the Broker for the existing
Position; if none, bind the local `position` to a fresh
`Position(data=data, method=method)`; the body then ends.  The final value of
the local `position` is returned alongside the (unchanged) Strategy state so
that the query-then-create behavior is observable; no delta is computed, no
threshold is compared, no method validation occurs and no order is
submitted. -/
def Strategy.order_target (s : Strategy) (data : DataC) (_target : Option Rat)
    (_price : Option Rat) (_thresh : Rat) (method : String) : Strategy × Position :=
  let position :=
    match s.broker.get_position data.ticker with
    | some p => p
    | none => Position.mk data.ticker 0 method
  (s, position)

/-! ### Helper lemmas on the embedded dict operations -/

theorem alook_upsert_self {α : Type} (l : List (String × α)) (k : String) (v : α) :
    alook (upsert l k v) k = some v := by
  induction l with
  | nil => simp [upsert, alook]
  | cons p rest ih =>
    by_cases h : p.1 = k
    · simp [upsert, h, alook]
    · simp [upsert, h, alook, ih]

theorem alook_upsert_ne {α : Type} (l : List (String × α)) (k k2 : String) (v : α)
    (h : k2 ≠ k) : alook (upsert l k v) k2 = alook l k2 := by
  induction l with
  | nil =>
    simp [upsert, alook]
    exact fun h2 => h h2.symm
  | cons p rest ih =>
    by_cases hp : p.1 = k
    · have hne : ¬ (k = k2) := fun h2 => h h2.symm
      have hp2 : ¬ (p.1 = k2) := by rw [hp]; exact hne
      simp [upsert, hp, alook, hne, hp2]
    · simp [upsert, hp, alook, ih]

theorem add_line_eq_ok {d : DataC} {name : String} {line : Line}
    (h : line.array.length = d.length) :
    d.add_line name line = .ok (DataC.mk d.ticker d.length (upsert d.lines name line)) := by
  simp [DataC.add_line, h]

theorem add_line_eq_error {d : DataC} {name : String} {line : Line}
    (h : line.array.length ≠ d.length) :
    d.add_line name line = .error (PyExc.mk "LineLengthMismatchError" name) := by
  simp [DataC.add_line, h]

theorem add_line_length {d d2 : DataC} {name : String} {line : Line}
    (h : d.add_line name line = .ok d2) : d2.length = d.length := by
  by_cases hl : line.array.length = d.length
  · rw [add_line_eq_ok hl] at h
    cases h
    rfl
  · rw [add_line_eq_error hl] at h
    cases h

theorem add_line_getLine_self {d d2 : DataC} {name : String} {line : Line}
    (h : d.add_line name line = .ok d2) : d2.getLine name = some line := by
  by_cases hl : line.array.length = d.length
  · rw [add_line_eq_ok hl] at h
    cases h
    simpa [DataC.getLine] using alook_upsert_self d.lines name line
  · rw [add_line_eq_error hl] at h
    cases h

theorem add_line_getLine_ne {d d2 : DataC} {name name2 : String} {line : Line}
    (h : d.add_line name line = .ok d2) (hne : name2 ≠ name) :
    d2.getLine name2 = d.getLine name2 := by
  by_cases hl : line.array.length = d.length
  · rw [add_line_eq_ok hl] at h
    cases h
    simpa [DataC.getLine] using alook_upsert_ne d.lines name name2 line hne
  · rw [add_line_eq_error hl] at h
    cases h

/-- When the source container carries well-sized `signal` and `strength`
Lines and every target has the source's timeline length, the broadcast loop
raises nothing and attaches both Lines, by value, to every target. -/
theorem broadcastLoop_ok (b : DataC) (sig str : Line)
    (hs : b.getLine "signal" = some sig) (ht : b.getLine "strength" = some str)
    (hls : sig.array.length = b.length) (hlt : str.array.length = b.length) :
    ∀ l : List (String × DataC), (∀ p ∈ l, p.2.length = b.length) →
      (broadcastLoop b l).1 = none ∧
      (broadcastLoop b l).2.length = l.length ∧
      ∀ p ∈ (broadcastLoop b l).2,
        p.2.getLine "signal" = some sig ∧ p.2.getLine "strength" = some str := by
  intro l
  induction l with
  | nil => intro _; simp [broadcastLoop]
  | cons p rest ih =>
    intro hlen
    obtain ⟨k, a⟩ := p
    have ha : a.length = b.length := hlen (k, a) (List.mem_cons_self _ _)
    have h1 : a.add_line "signal" sig =
        .ok (DataC.mk a.ticker a.length (upsert a.lines "signal" sig)) :=
      add_line_eq_ok (by rw [hls, ha])
    set a1 : DataC := DataC.mk a.ticker a.length (upsert a.lines "signal" sig) with ha1
    have ha1len : a1.length = a.length := rfl
    have h2 : a1.add_line "strength" str =
        .ok (DataC.mk a1.ticker a1.length (upsert a1.lines "strength" str)) :=
      add_line_eq_ok (by rw [hlt, ha1len, ha])
    set a2 : DataC := DataC.mk a1.ticker a1.length (upsert a1.lines "strength" str) with ha2
    have hrest := ih (fun q hq => hlen q (List.mem_cons_of_mem _ hq))
    have hunfold : broadcastLoop b ((k, a) :: rest) =
        ((broadcastLoop b rest).1, (k, a2) :: (broadcastLoop b rest).2) := by
      simp [broadcastLoop, hs, ht, h1, h2]
    refine ⟨by rw [hunfold]; exact hrest.1, by rw [hunfold]; simpa using hrest.2.1, ?_⟩
    intro q hq
    rw [hunfold] at hq
    rcases List.mem_cons.mp hq with hq | hq
    · subst hq
      constructor
      · have hsn : ("signal" : String) ≠ "strength" := by decide
        rw [add_line_getLine_ne h2 hsn]
        exact add_line_getLine_self h1
      · exact add_line_getLine_self h2
    · exact hrest.2.2 q hq

/-! ### Concrete fixtures used by witnesses and counterexamples -/

/-- A container with an empty Line mapping and timeline length 3. -/
def dEx : DataC := DataC.mk "ABC" 3 []

/-- A source container carrying well-sized `signal` and `strength` Lines. -/
def bEx : DataC :=
  DataC.mk "BASE" 3 [("signal", Line.mk [1, 0, -1]), ("strength", Line.mk [2, 0, -3])]

/-- A target container of the same timeline length as `bEx`. -/
def aEx : DataC := DataC.mk "AST" 3 []

/-- A target container whose timeline length differs from `bEx`. -/
def aBad : DataC := DataC.mk "BAD" 2 []

/-- An existing Position the Broker holds for ticker "ABC". -/
def posEx : Position := Position.mk "ABC" 5 "absolute"

/-- A Strategy over an empty Broker, with a configured base and one
configured and one unconfigured asset. -/
def sEx : Strategy :=
  Strategy.init (Broker.mk [] []) [("base", some bEx)] [("x", some aEx), ("y", none)] []

/-- A Strategy whose Broker already holds a Position for ticker "ABC". -/
def sPos : Strategy :=
  Strategy.init (Broker.mk [("ABC", posEx)] []) [] [] []

/-- A Strategy whose private mode attribute holds an unsupported value. -/
def sBadMode : Strategy := Strategy.mk (Broker.mk [] []) [] [] [] "event" []

/-- A concrete indicator body: constant 1 over the container's timeline. -/
def funcEx : Indicator := Indicator.mk "sma" (fun d _ => .ok (List.replicate d.length 1))

/-- A concrete indicator body that raises `ValueError("boom")`. -/
def funcRaise : Indicator := Indicator.mk "bad" (fun _ _ => .error (PyExc.mk "ValueError" "boom"))

/-- A concrete indicator body returning 2 values on a length-3 container. -/
def funcShort : Indicator := Indicator.mk "trunc" (fun _ _ => .ok [1, 2])

/-! ### Claim theorems -/

/-- C1 (code bug): at the spec's own example input — no existing Position for
the ticker, `target = 10`, `thresh = 1`, `method = "absolute"` — the visible
`order_target` body submits no order at all: the Strategy (and with it the
Broker's order log) is returned unchanged, where the claim requires exactly
one submitted order of size `delta = 10`.  The body ends right after the
lazy Position creation; no delta is computed and `new_order` is never
reached. -/
theorem order_target_submits_nothing :
    (sEx.order_target aEx (some 10) none 1 "absolute").1 = sEx ∧
    (sEx.order_target aEx (some 10) none 1 "absolute").1.broker.orders = [] :=
  ⟨rfl, rfl⟩

/-- C7 (code bug): with the unsupported method `"bogus"`, `order_target`
returns normally — its denotation is total, reusing the existing Position
and performing no method validation — instead of failing with a
not-implemented error analogous to the mode check in `I`. -/
theorem order_target_no_method_check :
    sPos.order_target dEx (some 10) none 1 "bogus" = (sPos, posEx) := rfl

/-- C8: `order_target` first consults `Broker.get_position(data.ticker)`;
it reuses the existing Position whenever one exists, constructs a fresh
Position (size 0, parameterized by `method`) only when the query returns
none, and the call leaves the Strategy — in particular the Broker's order
log — unchanged, so creation alone never submits an order. -/
theorem order_target_position_reuse (s : Strategy) (data : DataC)
    (target price : Option Rat) (thresh : Rat) (method : String) :
    ((s.order_target data target price thresh method).1 = s) ∧
    (∀ p, s.broker.get_position data.ticker = some p →
      (s.order_target data target price thresh method).2 = p) ∧
    (s.broker.get_position data.ticker = none →
      (s.order_target data target price thresh method).2 =
        Position.mk data.ticker 0 method) := by
  refine ⟨rfl, ?_, ?_⟩
  · intro p hp
    simp [Strategy.order_target, hp]
  · intro hp
    simp [Strategy.order_target, hp]

/-- Witness for C8 at concrete inputs: the Broker of `sPos` holds `posEx`
for ticker "ABC", so the call with `dEx` reuses it; the same Broker holds
nothing for ticker "AST", so the call with `aEx` builds a fresh size-0
Position with the given method. -/
theorem order_target_position_reuse_witness :
    (sPos.order_target dEx (some 10) none 1 "absolute").2 = posEx ∧
    (sPos.order_target aEx (some 10) none 1 "absolute").2 =
      Position.mk "AST" 0 "absolute" :=
  ⟨(order_target_position_reuse sPos dEx (some 10) none 1 "absolute").2.1 posEx (by decide),
   (order_target_position_reuse sPos aEx (some 10) none 1 "absolute").2.2 (by decide)⟩

/-- C6: calling `I` while the mode is any value other than the supported
vectorized one raises `NotImplementedError` naming the mode, and returns the
Strategy and the container unchanged; the result is the same for every
indicator `func`, so the indicator body is never invoked. -/
theorem I_unsupported_mode (s : Strategy) (func : Indicator) (data : DataC)
    (args : List Param) (h : s.mode ≠ MODE_V) :
    s.I func data args =
      (some (PyExc.mk "NotImplementedError" ("`Mode` " ++ s.mode ++ " not implemented")),
        s, data) := by
  simp [Strategy.I, h]

/-- Witness for C6: a Strategy whose mode attribute holds "event". -/
theorem I_unsupported_mode_witness :
    sBadMode.mode ≠ MODE_V ∧
    sBadMode.I funcEx dEx [] =
      (some (PyExc.mk "NotImplementedError"
        ("`Mode` " ++ sBadMode.mode ++ " not implemented")), sBadMode, dEx) :=
  ⟨by decide, I_unsupported_mode sBadMode funcEx dEx [] (by decide)⟩

/-- Membership through the role-accessor projection: an entry survives the
`if v is not None` comprehension iff the raw mapping binds it to `some`. -/
theorem mem_roleFilter (l : List (String × Option DataC)) (k : String) (d : DataC) :
    (k, d) ∈ l.filterMap (fun p => p.2.map (fun v => (p.1, v))) ↔ (k, some d) ∈ l := by
  induction l with
  | nil => simp
  | cons p rest ih =>
    obtain ⟨k2, ov⟩ := p
    cases ov with
    | none => simp [List.filterMap_cons, ih]
    | some v => simp [List.filterMap_cons, ih, Prod.mk.injEq]

/-- C9: the public `bases`/`assets`/`hedges` accessors return exactly the
entries of the private mappings whose value is configured: an entry is
exposed iff the raw mapping binds the key to a non-None container, so no
unconfigured (`None`) entry is ever exposed. -/
theorem accessors_filter_none (s : Strategy) (k : String) (d : DataC) :
    ((k, d) ∈ s.bases ↔ (k, some d) ∈ s.bases_raw) ∧
    ((k, d) ∈ s.assets ↔ (k, some d) ∈ s.assets_raw) ∧
    ((k, d) ∈ s.hedges ↔ (k, some d) ∈ s.hedges_raw) :=
  ⟨mem_roleFilter s.bases_raw k d, mem_roleFilter s.assets_raw k d,
    mem_roleFilter s.hedges_raw k d⟩

/-- Witness for C9: on `sEx`, the configured asset "x" is exposed and the
unconfigured entry "y" is not. -/
theorem accessors_filter_none_witness :
    ("x", aEx) ∈ sEx.assets ∧ ¬ (("y", aEx) ∈ sEx.assets) :=
  ⟨(accessors_filter_none sEx "x" aEx).2.1.mpr (by decide),
   fun hmem => absurd ((accessors_filter_none sEx "y" aEx).2.1.mp hmem) (by decide)⟩

/-- C3 counterexample: an indicator body that raises `ValueError("boom")` is
re-raised by `I` as the generic `Exception("boom")`: the message content
survives but the raised exception is not the original `ValueError` — the
original failure's class identity is lost, so the claimed identity-preserving
pass-through fails at this input. -/
theorem I_exception_identity_cex :
    (sEx.I funcRaise dEx []).1 = some (PyExc.mk "Exception" "boom") ∧
    PyExc.mk "Exception" "boom" ≠ PyExc.mk "ValueError" "boom" :=
  ⟨by decide, by decide⟩

/-- C3 amended: when the indicator body raises, `I` re-raises a generic
`Exception` carrying the original failure's message content (`raise
Exception(e)`), leaving Strategy and container unchanged; the original
exception class is not preserved. -/
theorem I_exception_content_preserved (s : Strategy) (func : Indicator) (data : DataC)
    (args : List Param) (e : PyExc) (hmode : s.mode = MODE_V)
    (hrun : func.run data args = .error e) :
    s.I func data args = (some (PyExc.mk "Exception" e.msg), s, data) := by
  simp [Strategy.I, hmode, hrun]

/-- Witness for the amended C3 at a concrete raising indicator. -/
theorem I_exception_content_preserved_witness :
    sEx.I funcRaise dEx [] = (some (PyExc.mk "Exception" "boom"), sEx, dEx) :=
  I_exception_content_preserved sEx funcRaise dEx [] (PyExc.mk "ValueError" "boom") rfl rfl

/-- C4: when the indicator output's length differs from the container's
timeline length, `I` raises a `ValueError` naming the indicator descriptor
(`name(params)`), and returns the Strategy and the container exactly as they
were: no Line is attached, no descriptor is recorded. -/
theorem I_length_mismatch (s : Strategy) (func : Indicator) (data : DataC)
    (args : List Param) (ind : List Rat) (hmode : s.mode = MODE_V)
    (hrun : func.run data args = .ok ind) (hlen : data.length ≠ ind.length) :
    s.I func data args =
      (some (PyExc.mk "ValueError"
        (func.name ++ "(" ++ derive_params args ++ ")" ++ ": error in Line length")),
        s, data) := by
  simp [Strategy.I, hmode, hrun, hlen]

/-- Witness for C4: a 2-element indicator output on a length-3 container. -/
theorem I_length_mismatch_witness :
    sEx.I funcShort dEx [] =
      (some (PyExc.mk "ValueError"
        (funcShort.name ++ "(" ++ derive_params [] ++ ")" ++ ": error in Line length")),
        sEx, dEx) :=
  I_length_mismatch sEx funcShort dEx [] [1, 2] rfl rfl (by decide)

/-- C5: after a successful `I` call the container carries, under the fixed
names, a `"strength"` Line equal to the raw indicator output and a
`"signal"` Line equal to its elementwise sign with values in {-1, 0, +1},
and the Strategy's `indicators` mapping binds the container's ticker to the
descriptor built from the function's name and the canonicalized parameters
(the Broker is untouched). -/
theorem I_success (s : Strategy) (func : Indicator) (data : DataC) (args : List Param)
    (ind : List Rat) (hmode : s.mode = MODE_V) (hrun : func.run data args = .ok ind)
    (hlen : data.length = ind.length) :
    ∃ s2 d2, s.I func data args = (none, s2, d2) ∧
      d2.getLine "strength" = some (Line.mk ind) ∧
      d2.getLine "signal" = some (Line.mk (ind.map np_sign)) ∧
      (∀ q ∈ ind.map np_sign, q = -1 ∨ q = 0 ∨ q = 1) ∧
      alook s2.indicators data.ticker =
        some (func.name ++ "(" ++ derive_params args ++ ")") ∧
      s2.broker = s.broker := by
  have h1 : data.add_line "signal" (Line.mk (ind.map np_sign)) =
      .ok (DataC.mk data.ticker data.length
        (upsert data.lines "signal" (Line.mk (ind.map np_sign)))) :=
    add_line_eq_ok (by simp [hlen])
  have h2 : (DataC.mk data.ticker data.length
        (upsert data.lines "signal" (Line.mk (ind.map np_sign)))).add_line "strength"
        (Line.mk ind) =
      .ok (DataC.mk data.ticker data.length
        (upsert (upsert data.lines "signal" (Line.mk (ind.map np_sign))) "strength"
          (Line.mk ind))) :=
    add_line_eq_ok (by simp [hlen])
  have hI : s.I func data args =
      (none,
        Strategy.mk s.broker s.bases_raw s.assets_raw s.hedges_raw s.mode
          (upsert s.indicators data.ticker (func.name ++ "(" ++ derive_params args ++ ")")),
        DataC.mk data.ticker data.length
          (upsert (upsert data.lines "signal" (Line.mk (ind.map np_sign))) "strength"
            (Line.mk ind))) := by
    rw [hlen] at h1 h2
    simp [Strategy.I, hmode, hrun, hlen, h1, h2]
  refine ⟨_, _, hI, add_line_getLine_self h2, ?_, ?_, alook_upsert_self _ _ _, rfl⟩
  · have hne : ("signal" : String) ≠ "strength" := by decide
    rw [add_line_getLine_ne h2 hne]
    exact add_line_getLine_self h1
  · intro q hq
    obtain ⟨x, _, hqx⟩ := List.mem_map.mp hq
    subst hqx
    rcases lt_trichotomy 0 x with h | h | h
    · right; right; simp [np_sign, h]
    · subst h; right; left; simp [np_sign]
    · left; simp [np_sign, h, asymm h]

/-- Witness for C5: the constant-1 indicator on a length-3 container. -/
theorem I_success_witness :
    ∃ s2 d2, sEx.I funcEx dEx [] = (none, s2, d2) ∧
      d2.getLine "strength" = some (Line.mk [1, 1, 1]) ∧
      d2.getLine "signal" = some (Line.mk (List.map np_sign [1, 1, 1])) ∧
      (∀ q ∈ List.map np_sign [1, 1, 1], q = -1 ∨ q = 0 ∨ q = 1) ∧
      alook s2.indicators dEx.ticker =
        some (funcEx.name ++ "(" ++ derive_params [] ++ ")") ∧
      s2.broker = sEx.broker :=
  I_success sEx funcEx dEx [] [1, 1, 1] rfl rfl rfl

/-- C2: when the source carries well-sized `signal` and `strength` Lines,
broadcasting it onto a singleton target mapping of equal timeline length
attaches both Lines to the target, equal in value to the source's; when the
lengths differ, the call raises instead of silently attaching a misaligned
Line — the failure propagates from the container's own attachment check. -/
theorem broadcast_copies_lines (s : Strategy) (b a : DataC) (k : String) (sig str : Line)
    (hs : b.getLine "signal" = some sig) (ht : b.getLine "strength" = some str)
    (hls : sig.array.length = b.length) (hlt : str.array.length = b.length) :
    (a.length = b.length →
      ∃ a2, s.broadcast (some b) [(k, a)] = (none, [(k, a2)]) ∧
        a2.getLine "signal" = some sig ∧ a2.getLine "strength" = some str) ∧
    (a.length ≠ b.length →
      (s.broadcast (some b) [(k, a)]).1 =
        some (PyExc.mk "LineLengthMismatchError" "signal")) := by
  constructor
  · intro heq
    have h1 : a.add_line "signal" sig =
        .ok (DataC.mk a.ticker a.length (upsert a.lines "signal" sig)) :=
      add_line_eq_ok (by rw [hls, heq])
    have h2 : (DataC.mk a.ticker a.length (upsert a.lines "signal" sig)).add_line
        "strength" str =
        .ok (DataC.mk a.ticker a.length
          (upsert (upsert a.lines "signal" sig) "strength" str)) :=
      add_line_eq_ok (by simpa using hlt.trans heq.symm)
    refine ⟨_, ?_, ?_, add_line_getLine_self h2⟩
    · simp [Strategy.broadcast, broadcastLoop, hs, ht, h1, h2]
    · have hne : ("signal" : String) ≠ "strength" := by decide
      rw [add_line_getLine_ne h2 hne]
      exact add_line_getLine_self h1
  · intro hne
    have h1 : a.add_line "signal" sig =
        .error (PyExc.mk "LineLengthMismatchError" "signal") :=
      add_line_eq_error (by rw [hls]; exact fun h => hne h.symm)
    simp [Strategy.broadcast, broadcastLoop, hs, h1]

/-- Witness for C2: copying `bEx`'s Lines onto the equal-length `aEx`
succeeds with equal values; onto the shorter `aBad` it raises. -/
theorem broadcast_copies_lines_witness :
    (∃ a2, sEx.broadcast (some bEx) [("t", aEx)] = (none, [("t", a2)]) ∧
      a2.getLine "signal" = some (Line.mk [1, 0, -1]) ∧
      a2.getLine "strength" = some (Line.mk [2, 0, -3])) ∧
    (sEx.broadcast (some bEx) [("t", aBad)]).1 =
      some (PyExc.mk "LineLengthMismatchError" "signal") :=
  ⟨(broadcast_copies_lines sEx bEx aEx "t" (Line.mk [1, 0, -1]) (Line.mk [2, 0, -3])
      (by decide) (by decide) rfl rfl).1 rfl,
   (broadcast_copies_lines sEx bEx aBad "t" (Line.mk [1, 0, -1]) (Line.mk [2, 0, -3])
      (by decide) (by decide) rfl rfl).2 (by decide)⟩

/-- C10: broadcasting with an explicitly supplied empty assets mapping is the
same call as broadcasting with the Strategy's own configured assets (the
empty dict is falsy, so the default kicks in), and it copies the source's
`signal` and `strength` Lines onto every configured asset. -/
theorem broadcast_empty_assets (s : Strategy) (base : Option DataC) (b : DataC)
    (sig str : Line) :
    s.broadcast base [] = s.broadcast base s.assets ∧
    (b.getLine "signal" = some sig → b.getLine "strength" = some str →
      sig.array.length = b.length → str.array.length = b.length →
      (∀ p ∈ s.assets, p.2.length = b.length) →
      (s.broadcast (some b) []).1 = none ∧
      (s.broadcast (some b) []).2.length = s.assets.length ∧
      ∀ p ∈ (s.broadcast (some b) []).2,
        p.2.getLine "signal" = some sig ∧ p.2.getLine "strength" = some str) := by
  constructor
  · cases base with
    | none => simp [Strategy.broadcast]
    | some b2 => simp [Strategy.broadcast]
  · intro hs ht hls hlt hlen
    have hb2 : s.broadcast (some b) [] = broadcastLoop b s.assets := by
      simp [Strategy.broadcast]
    rw [hb2]
    exact broadcastLoop_ok b sig str hs ht hls hlt s.assets hlen

/-- Witness for C10: on `sEx` (one configured asset "x", one unconfigured
entry) the empty-mapping call equals the call on the configured assets and
attaches both of `bEx`'s Lines to each configured asset. -/
theorem broadcast_empty_assets_witness :
    sEx.broadcast (some bEx) [] = sEx.broadcast (some bEx) sEx.assets ∧
    ((sEx.broadcast (some bEx) []).1 = none ∧
      (sEx.broadcast (some bEx) []).2.length = sEx.assets.length ∧
      ∀ p ∈ (sEx.broadcast (some bEx) []).2,
        p.2.getLine "signal" = some (Line.mk [1, 0, -1]) ∧
        p.2.getLine "strength" = some (Line.mk [2, 0, -3])) := by
  have h := broadcast_empty_assets sEx (some bEx) bEx (Line.mk [1, 0, -1])
    (Line.mk [2, 0, -3])
  exact ⟨h.1, h.2 (by decide) (by decide) rfl rfl (by decide)⟩

end Backtesthub
